import Mathlib

/-!
Verification of the travel-planner orchestration core (src/app.py).

The Python source is shallowly embedded below: `Tool`, `Agent`,
`TravelCrew` and the top-level script fragments (date rendering, API-key
gate, run history) become Lean definitions; the external LLM call
(`litellm.completion`) is abstracted as a `Gateway` function from a
prompt string to either a raised-exception message or a JSON-like
response value, over which the claims quantify.
-/

set_option autoImplicit false

namespace TravelApp

/-- JSON-like value returned by the completion gateway; used to model the
subscript chain `response["choices"][0]["message"]["content"]`. -/
inductive JsonVal where
  | str (s : String)
  | num (n : Int)
  | arr (elems : List JsonVal)
  | obj (fields : List (String × JsonVal))

/-- Python `value[key]` on a dict: the value, or a raised `KeyError` /
`TypeError` message (raised inside the `try`, hence caught). -/
def jsonGet : JsonVal → String → Except String JsonVal
  | .obj fs, k =>
      match fs.find? (fun p => p.1 = k) with
      | some p => .ok p.2
      | none => .error ("'" ++ k ++ "'")
  | _, _ => .error "object is not subscriptable"

/-- Python `value[i]` on a list: the element, or a raised `IndexError` /
`TypeError` message. -/
def jsonIdx : JsonVal → Nat → Except String JsonVal
  | .arr es, i =>
      match es.get? i with
      | some v => .ok v
      | none => .error "list index out of range"
  | _, _ => .error "object is not subscriptable"

/-- Final leaf access: the `content` field is expected to be a string. -/
def asString : JsonVal → Except String String
  | .str s => .ok s
  | _ => .error "response content is not a string"

/-- The completion gateway (`litellm.completion`), abstracted: a prompt
string goes in; either a response value comes back or an exception with
the given message is raised. -/
def Gateway : Type := String → Except String JsonVal

/-- A well-formed completion response whose generated text is `s`:
`{"choices": [{"message": {"content": s}}]}`. -/
def okResponse (s : String) : JsonVal :=
  .obj [("choices", .arr [.obj [("message", .obj [("content", .str s)])]])]

/-- `class Tool` (src/app.py line 78). -/
structure Tool where
  name : String
  func : String → String
  description : String

/-- `class Agent` (src/app.py line 84). -/
structure Agent where
  role : String
  goal : String
  backstory : String
  tools : List Tool

/-- `Agent._format_tools` (src/app.py line 114):
`"\n".join([f"- {tool.name}: {tool.description}" for tool in self.tools])`. -/
def formatTools (tools : List Tool) : String :=
  String.intercalate "\n" (tools.map (fun t => "- " ++ t.name ++ ": " ++ t.description))

/-- The prompt f-string assembled in `Agent.execute_task`
(src/app.py lines 92-103), with the exact literal segments of the source. -/
def buildPrompt (a : Agent) (task_description : String) : String :=
  "\n        Role: " ++ (a.role ++
  ("\n        Goal: " ++ (a.goal ++
  ("\n        Background: " ++ (a.backstory ++
  ("\n\n        Available Tools:\n        " ++ (formatTools a.tools ++
  ("\n\n        Task: " ++ (task_description ++
  "\n\n        Please respond with a well-formatted markdown plan with headers, bullet points, and details.\n        ")))))))))

/-- The body of the `try` block in `Agent.execute_task` (src/app.py lines
104-110): call the gateway, then extract
`response["choices"][0]["message"]["content"]`; any step may raise. -/
def tryBody (gw : Gateway) (prompt : String) : Except String String := do
  let response ← gw prompt
  let choices ← jsonGet response "choices"
  let c0 ← jsonIdx choices 0
  let message ← jsonGet c0 "message"
  let content ← jsonGet message "content"
  asString content

/-- `Agent.execute_task` (src/app.py lines 91-112): build the prompt, run
the gateway call + extraction, and catch any exception into
`f"❌ Error: {str(e)}"`. -/
def executeTask (gw : Gateway) (a : Agent) (task_description : String) : String :=
  match tryBody gw (buildPrompt a task_description) with
  | .ok s => s
  | .error e => "❌ Error: " ++ e

/-- The `travel_details` dict built at src/app.py lines 181-188. -/
structure TripDetails where
  from_location : String
  to_ : String
  dates : String
  budget : Int
  travelers : Nat
  preferences : String

/-- `TravelCrew._generate_task` (src/app.py lines 128-136), with the
exact literal segments of the source. -/
def generateTask (a : Agent) (d : TripDetails) : String :=
  "\n        Plan a trip from " ++ (d.from_location ++ (" to " ++ (d.to_ ++
  (" for " ++ (toString d.travelers ++ (" travelers.\n        - Dates: " ++
  (d.dates ++ ("\n        - Budget: $" ++ (toString d.budget ++
  ("\n        - Preferences: " ++ (d.preferences ++
  ("\n\n        Your task: " ++ (a.goal ++ "\n        ")))))))))))))

/-- The full prompt one agent sends to the gateway during a run. -/
def fullPrompt (a : Agent) (d : TripDetails) : String :=
  buildPrompt a (generateTask a d)

/-- A Plan Result: the Python dict `results`, as an ordered association
list (Python dicts preserve insertion order). -/
abbrev PlanResult := List (String × String)

/-- The keys of a Plan Result, in order. -/
def keysOf (d : PlanResult) : List String := d.map (fun p => p.1)

/-- Python `results[k] = v`: update in place if `k` is already a key
(keeping its position), otherwise append at the end. -/
def dictInsert (d : PlanResult) (k v : String) : PlanResult :=
  if k ∈ keysOf d then d.map (fun p => if p.1 = k then (k, v) else p)
  else d ++ [(k, v)]

/-- Python `results[k]` as a total lookup. -/
def lookupD (d : PlanResult) (k : String) : Option String :=
  (d.find? (fun p => p.1 = k)).map (fun p => p.2)

/-- `class TravelCrew` (src/app.py line 117). -/
structure TravelCrew where
  agents : List Agent

/-- One loop iteration of `TravelCrew.execute_plan`:
`results[agent.role] = agent.execute_task(self._generate_task(agent, travel_details))`. -/
def planStep (gw : Gateway) (d : TripDetails) (results : PlanResult) (a : Agent) : PlanResult :=
  dictInsert results a.role (executeTask gw a (generateTask a d))

/-- `TravelCrew.execute_plan` (src/app.py lines 121-126). -/
def executePlan (gw : Gateway) (crew : TravelCrew) (d : TripDetails) : PlanResult :=
  crew.agents.foldl (planStep gw d) []

/-- One loop iteration of `execute_plan`, instrumented with the prompt
sent to the gateway during that iteration (`execute_task` performs
exactly one gateway call, inside its `try`). -/
def traceStep (gw : Gateway) (d : TripDetails) (st : PlanResult × List String)
    (a : Agent) : PlanResult × List String :=
  (planStep gw d st.1 a, st.2 ++ [fullPrompt a d])

/-- `execute_plan` instrumented with the list of prompts sent to the
gateway, in order. -/
def executePlanTrace (gw : Gateway) (crew : TravelCrew) (d : TripDetails) :
    PlanResult × List String :=
  crew.agents.foldl (traceStep gw d) ([], [])

/-- `search_tool` (src/app.py line 139). -/
def search_tool : Tool :=
  ⟨"Search", fun q => "Search: " ++ q, "Search travel info"⟩

/-- `scrape_tool` (src/app.py line 140). -/
def scrape_tool : Tool :=
  ⟨"Scraper", fun url => "Scrape: " ++ url, "Scrape travel data"⟩

/-- The `agents` list (src/app.py lines 143-147). -/
def appAgents : List Agent :=
  [⟨"Flight Specialist", "Find best flights", "Airfare wizard", [search_tool]⟩,
   ⟨"Accommodation Expert", "Recommend hotels", "Hotel finder pro", [search_tool]⟩,
   ⟨"Activity Planner", "Create an itinerary", "Loves planning memorable trips", [search_tool]⟩]

/-- `crew = TravelCrew(agents)` (src/app.py line 149). -/
def appCrew : TravelCrew := ⟨appAgents⟩

/-- A date as produced by the Streamlit date picker. -/
structure PyDate where
  year : Nat
  month : Nat
  day : Nat
deriving DecidableEq

/-- Month names used by `strftime("%B")`. -/
def monthName (m : Nat) : String :=
  ["January", "February", "March", "April", "May", "June", "July",
   "August", "September", "October", "November", "December"].getD (m - 1) ""

/-- Zero-padded two-digit day, as `strftime("%d")` renders it. -/
def pad2 (n : Nat) : String :=
  if n < 10 then "0" ++ toString n else toString n

/-- `date.strftime("%B %d, %Y")` (src/app.py line 164). -/
def strftimeBdY (d : PyDate) : String :=
  monthName d.month ++ " " ++ pad2 d.day ++ ", " ++ toString d.year

/-- The date rendering at src/app.py lines 162-166: a two-element
selection renders as `"{start} - {end}"`, anything else as
`"Not selected"`. -/
def renderDates (sel : List PyDate) : String :=
  match sel with
  | [d1, d2] => strftimeBdY d1 ++ " - " ++ strftimeBdY d2
  | _ => "Not selected"

/-- One retained run: `(timestamp, results)` (src/app.py line 190). -/
abbrev RunEntry := String × PlanResult

/-- `st.session_state.history.append((timestamp, results))`
(src/app.py line 190): plain append, no trimming. -/
def appendRun (h : List RunEntry) (e : RunEntry) : List RunEntry := h ++ [e]

/-- The display iteration `reversed(st.session_state.history[-3:])`
(src/app.py line 214): the last three retained entries, newest first. -/
def displayRuns (h : List RunEntry) : List RunEntry :=
  (h.drop (h.length - 3)).reverse

/-- The sidebar warning at src/app.py lines 72-75: shown exactly when the
API key field is empty (falsy). -/
def warningShown (apiKey : String) : Bool := apiKey == ""

/-- The submission gate `if submitted and api_key:` (src/app.py line
179): the run happens only when the form was submitted and the key is a
non-empty (truthy) string; otherwise no result is produced and no
gateway call is made. Returns (produced Plan Result, prompts sent). -/
def submitRun (apiKey : String) (submitted : Bool) (gw : Gateway)
    (crew : TravelCrew) (d : TripDetails) : Option PlanResult × List String :=
  if submitted = true ∧ apiKey ≠ "" then
    (some (executePlanTrace gw crew d).1, (executePlanTrace gw crew d).2)
  else (none, [])

/-- The example Trip Request from the spec (section 8). -/
def exampleDetails : TripDetails :=
  ⟨"New York", "Paris", "June 01, 2025 - June 10, 2025", 1500, 2, "Museums, beach, food"⟩

/-! ### Dictionary lemmas -/

theorem keysOf_append_single (d : PlanResult) (p : String × String) :
    keysOf (d ++ [p]) = keysOf d ++ [p.1] := by
  simp [keysOf]

theorem keysOf_dictInsert_of_mem {d : PlanResult} {k : String} (v : String)
    (h : k ∈ keysOf d) : keysOf (dictInsert d k v) = keysOf d := by
  unfold dictInsert
  rw [if_pos h]
  unfold keysOf
  rw [List.map_map]
  apply List.map_congr_left
  intro p _
  by_cases hp : p.1 = k
  · simp [hp]
  · simp [hp]

theorem dictInsert_of_not_mem {d : PlanResult} {k : String} (v : String)
    (h : k ∉ keysOf d) : dictInsert d k v = d ++ [(k, v)] := by
  unfold dictInsert
  rw [if_neg h]

theorem mem_keysOf_dictInsert_self (d : PlanResult) (k v : String) :
    k ∈ keysOf (dictInsert d k v) := by
  by_cases h : k ∈ keysOf d
  · rw [keysOf_dictInsert_of_mem v h]; exact h
  · rw [dictInsert_of_not_mem v h, keysOf_append_single]
    exact List.mem_append_right _ (List.mem_singleton.mpr rfl)

theorem mem_keysOf_dictInsert_of_mem {d : PlanResult} {k : String} (k2 v : String)
    (h : k ∈ keysOf d) : k ∈ keysOf (dictInsert d k2 v) := by
  by_cases h2 : k2 ∈ keysOf d
  · rw [keysOf_dictInsert_of_mem v h2]; exact h
  · rw [dictInsert_of_not_mem v h2, keysOf_append_single]
    exact List.mem_append_left _ h

theorem length_keysOf (d : PlanResult) : (keysOf d).length = d.length := by
  simp [keysOf]

theorem values_dictInsert {P : String → Prop} {d : PlanResult} {k v : String}
    (hd : ∀ p ∈ d, P p.2) (hv : P v) : ∀ p ∈ dictInsert d k v, P p.2 := by
  intro p hp
  unfold dictInsert at hp
  by_cases h : k ∈ keysOf d
  · rw [if_pos h] at hp
    obtain ⟨q, hq, hfq⟩ := List.mem_map.mp hp
    by_cases hq1 : q.1 = k
    · rw [if_pos hq1] at hfq
      rw [← hfq]
      exact hv
    · rw [if_neg hq1] at hfq
      rw [← hfq]
      exact hd q hq
  · rw [if_neg h] at hp
    rcases List.mem_append.mp hp with h1 | h1
    · exact hd p h1
    · rw [List.mem_singleton] at h1
      rw [h1]
      exact hv

/-! ### Fold lemmas for `execute_plan` -/

theorem keysOf_foldl_nodup (gw : Gateway) (dts : TripDetails) :
    ∀ (l : List Agent) (d : PlanResult),
      (∀ a ∈ l, a.role ∉ keysOf d) → (l.map Agent.role).Nodup →
      keysOf (l.foldl (planStep gw dts) d) = keysOf d ++ l.map Agent.role
  | [], d, _, _ => by simp
  | a :: t, d, hfresh, hnd => by
    have hmem : a.role ∉ keysOf d := hfresh a (List.mem_cons_self a t)
    have hstep : planStep gw dts d a
        = d ++ [(a.role, executeTask gw a (generateTask a dts))] :=
      dictInsert_of_not_mem _ hmem
    rw [List.map_cons, List.nodup_cons] at hnd
    have hfresh2 : ∀ b ∈ t, b.role ∉ keysOf (planStep gw dts d a) := by
      intro b hb
      rw [hstep, keysOf_append_single]
      intro hmem2
      rcases List.mem_append.mp hmem2 with h1 | h1
      · exact hfresh b (List.mem_cons_of_mem a hb) h1
      · rw [List.mem_singleton] at h1
        have h2 : b.role = a.role := h1
        exact hnd.1 (h2 ▸ List.mem_map_of_mem Agent.role hb)
    calc keysOf ((a :: t).foldl (planStep gw dts) d)
        = keysOf (t.foldl (planStep gw dts) (planStep gw dts d a)) := by
          rw [List.foldl_cons]
      _ = keysOf (planStep gw dts d a) ++ t.map Agent.role :=
          keysOf_foldl_nodup gw dts t _ hfresh2 hnd.2
      _ = (keysOf d ++ [a.role]) ++ t.map Agent.role := by
          rw [hstep, keysOf_append_single]
      _ = keysOf d ++ (a :: t).map Agent.role := by simp

theorem values_foldl (gw : Gateway) (dts : TripDetails) (P : String → Prop) :
    ∀ (l : List Agent) (d : PlanResult),
      (∀ p ∈ d, P p.2) →
      (∀ a ∈ l, P (executeTask gw a (generateTask a dts))) →
      ∀ p ∈ l.foldl (planStep gw dts) d, P p.2
  | [], _, hd, _, p, hp => hd p hp
  | a :: t, d, hd, hl, p, hp => by
    refine values_foldl gw dts P t (planStep gw dts d a) ?_ ?_ p (by simpa using hp)
    · exact values_dictInsert hd (hl a (List.mem_cons_self a t))
    · intro b hb
      exact hl b (List.mem_cons_of_mem a hb)

theorem keys_grow_foldl (gw : Gateway) (dts : TripDetails) :
    ∀ (l : List Agent) (d : PlanResult) (k : String), k ∈ keysOf d →
      k ∈ keysOf (l.foldl (planStep gw dts) d)
  | [], _, _, h => h
  | _ :: t, _, k, h =>
    keys_grow_foldl gw dts t _ k (mem_keysOf_dictInsert_of_mem _ _ h)

theorem role_mem_keysOf_foldl (gw : Gateway) (dts : TripDetails) :
    ∀ (l : List Agent) (d : PlanResult) (a : Agent), a ∈ l →
      a.role ∈ keysOf (l.foldl (planStep gw dts) d)
  | [], _, _, ha => absurd ha (List.not_mem_nil _)
  | b :: t, d, a, ha => by
    rcases List.mem_cons.mp ha with h1 | h1
    · subst h1
      rw [List.foldl_cons]
      exact keys_grow_foldl gw dts t _ _ (mem_keysOf_dictInsert_self d a.role _)
    · rw [List.foldl_cons]
      exact role_mem_keysOf_foldl gw dts t _ a h1

/-- C1: for a crew whose declared role names are pairwise distinct, a run
of `execute_plan` yields a Plan Result with exactly one entry per
declared agent, keyed by its role name in declaration order — for every
gateway behavior. -/
theorem claim_C1 (gw : Gateway) (crw : TravelCrew) (d : TripDetails)
    (h : (crw.agents.map Agent.role).Nodup) :
    keysOf (executePlan gw crw d) = crw.agents.map Agent.role ∧
    (executePlan gw crw d).length = crw.agents.length := by
  have hk : keysOf (executePlan gw crw d) = crw.agents.map Agent.role := by
    have hbase : ∀ a ∈ crw.agents, a.role ∉ keysOf ([] : PlanResult) := by
      intro a _ hmem
      simp [keysOf] at hmem
    have := keysOf_foldl_nodup gw d crw.agents [] hbase h
    simpa [executePlan, keysOf] using this
  refine ⟨hk, ?_⟩
  have hlen := length_keysOf (executePlan gw crw d)
  rw [hk] at hlen
  simpa using hlen.symm

/-- Witness for C1 at the crew declared in the source and an
always-failing gateway. -/
theorem claim_C1_witness :
    keysOf (executePlan (fun _ => .error "connection error") appCrew exampleDetails)
      = appCrew.agents.map Agent.role ∧
    (executePlan (fun _ => .error "connection error") appCrew exampleDetails).length
      = appCrew.agents.length :=
  claim_C1 _ appCrew exampleDetails (by decide)

/-! ### Behavior of `execute_task` -/

theorem executeTask_of_ok (gw : Gateway) (a : Agent) (t s : String)
    (h : gw (buildPrompt a t) = .ok (okResponse s)) : executeTask gw a t = s := by
  have hbody : tryBody gw (buildPrompt a t) = .ok s := by
    rw [tryBody, h]
    rfl
  rw [executeTask, hbody]

theorem executeTask_of_error (gw : Gateway) (a : Agent) (t m : String)
    (h : gw (buildPrompt a t) = .error m) : executeTask gw a t = "❌ Error: " ++ m := by
  have hbody : tryBody gw (buildPrompt a t) = .error m := by
    rw [tryBody, h]
    rfl
  rw [executeTask, hbody]

/-- C10: `execute_task` is total at its public interface: for every task
description (the empty string included) and every gateway behavior —
well-formed response, raised error, or malformed response (on which the
extraction raises inside the `try`) — it returns a string that is either
the successfully extracted gateway text or the ❌-marker error string. -/
theorem claim_C10 (gw : Gateway) (a : Agent) (task_description : String) :
    tryBody gw (buildPrompt a task_description)
      = .ok (executeTask gw a task_description) ∨
    ∃ m, executeTask gw a task_description = "❌ Error: " ++ m ∧
      tryBody gw (buildPrompt a task_description) = .error m := by
  cases h : tryBody gw (buildPrompt a task_description) with
  | ok s =>
    left
    rw [executeTask, h]
  | error m =>
    right
    exact ⟨m, by rw [executeTask, h], rfl⟩

/-! ### Lookup lemmas -/

theorem lookupD_eq_none {d : PlanResult} {k : String} (h : k ∉ keysOf d) :
    lookupD d k = none := by
  induction d with
  | nil => rfl
  | cons p t ih =>
    have h1 : ¬(p.1 = k) := fun e => h (by simp [keysOf, e])
    have h2 : k ∉ keysOf t := fun e => h (by simp [keysOf] at e ⊢; exact .inr e)
    rw [lookupD, List.find?_cons_of_neg _ (by simpa using h1)]
    exact ih h2

theorem lookupD_isSome_of_mem {d : PlanResult} {k : String} (h : k ∈ keysOf d) :
    ∃ v, lookupD d k = some v := by
  induction d with
  | nil => simp [keysOf] at h
  | cons p t ih =>
    by_cases h1 : p.1 = k
    · exact ⟨p.2, by rw [lookupD, List.find?_cons_of_pos _ (by simpa using h1)]; rfl⟩
    · have h2 : k ∈ keysOf t := by
        simp [keysOf] at h ⊢
        tauto
      obtain ⟨v, hv⟩ := ih h2
      exact ⟨v, by rw [lookupD, List.find?_cons_of_neg _ (by simpa using h1)]; exact hv⟩

theorem mem_of_lookupD {d : PlanResult} {k v : String}
    (h : lookupD d k = some v) : (k, v) ∈ d := by
  induction d with
  | nil => simp [lookupD] at h
  | cons p t ih =>
    by_cases h1 : p.1 = k
    · rw [lookupD, List.find?_cons_of_pos _ (by simpa using h1)] at h
      have h2 : p.2 = v := by simpa using h
      have h3 : p = (k, v) := by
        rw [← h1, ← h2]
      rw [← h3]
      exact List.mem_cons_self p t
    · rw [lookupD, List.find?_cons_of_neg _ (by simpa using h1)] at h
      exact List.mem_cons_of_mem p (ih h)

/-- C2: if the gateway returns a well-formed response with text `"OK"`
for every prompt, then the Plan Result entry of every agent in the crew
is exactly `"OK"`. -/
theorem claim_C2 (gw : Gateway) (crw : TravelCrew) (d : TripDetails)
    (h : ∀ prompt, gw prompt = .ok (okResponse "OK")) :
    ∀ a ∈ crw.agents, lookupD (executePlan gw crw d) a.role = some "OK" := by
  intro a ha
  have hkey : a.role ∈ keysOf (executePlan gw crw d) :=
    role_mem_keysOf_foldl gw d crw.agents [] a ha
  obtain ⟨v, hv⟩ := lookupD_isSome_of_mem hkey
  have hmem : (a.role, v) ∈ executePlan gw crw d := mem_of_lookupD hv
  have hval : v = "OK" := by
    have hall := values_foldl gw d (fun s => s = "OK") crw.agents []
      (by intro p hp; simp at hp)
      (fun b _ => executeTask_of_ok gw b (generateTask b d) "OK" (h _))
    exact hall (a.role, v) hmem
  rw [hv, hval]

/-- Witness for C2 at the crew declared in the source, its first agent,
and a gateway that always answers with the text `"OK"`. -/
theorem claim_C2_witness :
    lookupD (executePlan (fun _ => .ok (okResponse "OK")) appCrew exampleDetails)
      "Flight Specialist" = some "OK" :=
  claim_C2 (fun _ => .ok (okResponse "OK")) appCrew exampleDetails (fun _ => rfl)
    ⟨"Flight Specialist", "Find best flights", "Airfare wizard", [search_tool]⟩
    (List.mem_cons_self _ _)

/-- C3: if the gateway raises an error with message `m` on every call,
then every Plan Result entry starts with the failure marker
`"❌ Error: "` and contains the message `m`. -/
theorem claim_C3 (gw : Gateway) (crw : TravelCrew) (d : TripDetails) (m : String)
    (h : ∀ prompt, gw prompt = .error m) :
    ∀ p ∈ executePlan gw crw d,
      (∃ rest, p.2 = "❌ Error: " ++ rest) ∧ (∃ u v, p.2 = u ++ m ++ v) := by
  have hall := values_foldl gw d (fun s => s = "❌ Error: " ++ m) crw.agents []
    (by intro p hp; simp at hp)
    (fun b _ => executeTask_of_error gw b (generateTask b d) m (h _))
  intro p hp
  have hp2 := hall p hp
  constructor
  · exact ⟨m, hp2⟩
  · refine ⟨"❌ Error: ", "", ?_⟩
    rw [hp2]
    simp

/-- Witness for C3 at the crew declared in the source, its first Plan
Result entry, and a gateway that always raises a transport error with
message `"boom"`. -/
theorem claim_C3_witness :
    (∃ rest, (("Flight Specialist", "❌ Error: boom") : String × String).2
        = "❌ Error: " ++ rest) ∧
    (∃ u v, (("Flight Specialist", "❌ Error: boom") : String × String).2
        = u ++ "boom" ++ v) :=
  claim_C3 (fun _ => .error "boom") appCrew exampleDetails "boom" (fun _ => rfl)
    ("Flight Specialist", "❌ Error: boom") (by decide)

/-! ### Trace lemmas for C4 -/

theorem traceStep_foldl_snd (gw : Gateway) (dts : TripDetails) :
    ∀ (l : List Agent) (st : PlanResult × List String),
      (l.foldl (traceStep gw dts) st).2 = st.2 ++ l.map (fun a => fullPrompt a dts)
  | [], st => by simp
  | a :: t, st => by
    rw [List.foldl_cons, traceStep_foldl_snd gw dts t]
    simp [traceStep]

theorem traceStep_foldl_fst (gw : Gateway) (dts : TripDetails) :
    ∀ (l : List Agent) (st : PlanResult × List String),
      (l.foldl (traceStep gw dts) st).1 = l.foldl (planStep gw dts) st.1
  | [], _ => rfl
  | a :: t, st => by
    rw [List.foldl_cons, List.foldl_cons, traceStep_foldl_fst gw dts t]
    rfl

/-- C4: for every gateway behavior — including gateways that raise on
some or all calls — a run sends exactly one prompt per declared agent,
in declaration order (no agent is skipped, the loop never halts early),
and the traced run returns normally with the same Plan Result as
`execute_plan`. -/
theorem claim_C4 (gw : Gateway) (crw : TravelCrew) (d : TripDetails) :
    (executePlanTrace gw crw d).2 = crw.agents.map (fun a => fullPrompt a d) ∧
    (executePlanTrace gw crw d).1 = executePlan gw crw d := by
  constructor
  · have := traceStep_foldl_snd gw d crw.agents ([], [])
    simpa [executePlanTrace] using this
  · have := traceStep_foldl_fst gw d crw.agents ([], [])
    simpa [executePlanTrace, executePlan] using this

/-! ### Lookup through `dictInsert` and overwriting semantics -/

theorem lookupD_map_update_self {k v : String} :
    ∀ (d : PlanResult), k ∈ keysOf d →
      lookupD (d.map (fun p => if p.1 = k then (k, v) else p)) k = some v
  | [], h => by simp [keysOf] at h
  | p :: t, h => by
    by_cases h1 : p.1 = k
    · rw [List.map_cons, if_pos h1, lookupD,
        List.find?_cons_of_pos _ (by simp)]
      rfl
    · have h2 : k ∈ keysOf t := by
        simp [keysOf] at h ⊢
        tauto
      rw [List.map_cons, if_neg h1, lookupD,
        List.find?_cons_of_neg _ (by simpa using h1)]
      exact lookupD_map_update_self t h2

theorem lookupD_map_update_other {k v kq : String} (hne : kq ≠ k) :
    ∀ (d : PlanResult),
      lookupD (d.map (fun p => if p.1 = k then (k, v) else p)) kq = lookupD d kq
  | [] => rfl
  | p :: t => by
    by_cases h1 : p.1 = k
    · have h2 : ¬(p.1 = kq) := by
        rw [h1]
        exact fun e => hne e.symm
      rw [List.map_cons, if_pos h1, lookupD,
        List.find?_cons_of_neg _ (by simpa using fun e => hne e.symm),
        lookupD, List.find?_cons_of_neg _ (by simpa using h2)]
      exact lookupD_map_update_other hne t
    · by_cases h3 : p.1 = kq
      · rw [List.map_cons, if_neg h1, lookupD,
          List.find?_cons_of_pos _ (by simpa using h3),
          lookupD, List.find?_cons_of_pos _ (by simpa using h3)]
      · rw [List.map_cons, if_neg h1, lookupD,
          List.find?_cons_of_neg _ (by simpa using h3),
          lookupD, List.find?_cons_of_neg _ (by simpa using h3)]
        exact lookupD_map_update_other hne t

theorem lookupD_append_single (d : PlanResult) (q : String × String) (kq : String) :
    lookupD (d ++ [q]) kq =
      ((lookupD d kq).or (if q.1 = kq then some q.2 else none)) := by
  rw [lookupD, List.find?_append]
  cases hfind : d.find? (fun p => p.1 = kq) with
  | some p => simp [lookupD, hfind]
  | none =>
    simp only [lookupD, hfind, Option.none_or, Option.map_none]
    by_cases h1 : q.1 = kq
    · rw [List.find?_cons_of_pos _ (by simpa using h1), if_pos h1]
      rfl
    · rw [List.find?_cons_of_neg _ (by simpa using h1), if_neg h1]
      rfl

theorem lookupD_dictInsert (d : PlanResult) (k kq v : String) :
    lookupD (dictInsert d k v) kq = if kq = k then some v else lookupD d kq := by
  by_cases hmem : k ∈ keysOf d
  · rw [dictInsert, if_pos hmem]
    by_cases he : kq = k
    · rw [if_pos he, he]
      exact lookupD_map_update_self d hmem
    · rw [if_neg he]
      exact lookupD_map_update_other he d
  · rw [dictInsert_of_not_mem _ hmem, lookupD_append_single]
    by_cases he : kq = k
    · rw [if_pos he, he, lookupD_eq_none hmem]
      simp
    · rw [if_neg he, if_neg (fun e : k = kq => he e.symm)]
      cases hl : lookupD d kq <;> rfl

theorem lookupD_foldl (gw : Gateway) (dts : TripDetails) :
    ∀ (l : List Agent) (d : PlanResult) (k : String),
      lookupD (l.foldl (planStep gw dts) d) k =
        match l.reverse.find? (fun a => a.role = k) with
        | some b => some (executeTask gw b (generateTask b dts))
        | none => lookupD d k
  | [], d, k => by simp
  | a :: t, d, k => by
    rw [List.foldl_cons, lookupD_foldl gw dts t, List.reverse_cons, List.find?_append]
    cases hfind : t.reverse.find? (fun a => a.role = k) with
    | some b => rfl
    | none =>
      simp only [Option.none_or]
      by_cases hak : a.role = k
      · rw [List.find?_cons_of_pos _ (by simpa using hak)]
        rw [planStep, lookupD_dictInsert, if_pos hak.symm]
      · rw [List.find?_cons_of_neg _ (by simpa using hak)]
        rw [List.find?_nil, planStep, lookupD_dictInsert,
          if_neg (fun e : k = a.role => hak e.symm)]

/-! ### Key counting for duplicate roles -/

theorem keysOf_foldl_subset (gw : Gateway) (dts : TripDetails) :
    ∀ (l : List Agent) (d : PlanResult) (k : String),
      k ∈ keysOf (l.foldl (planStep gw dts) d) → k ∈ keysOf d ∨ k ∈ l.map Agent.role
  | [], _, k, h => .inl h
  | a :: t, d, k, h => by
    rw [List.foldl_cons] at h
    rcases keysOf_foldl_subset gw dts t _ k h with h1 | h1
    · by_cases hmem : a.role ∈ keysOf d
      · rw [planStep, keysOf_dictInsert_of_mem _ hmem] at h1
        exact .inl h1
      · rw [planStep, dictInsert_of_not_mem _ hmem, keysOf_append_single] at h1
        rcases List.mem_append.mp h1 with h2 | h2
        · exact .inl h2
        · rw [List.mem_singleton] at h2
          have h3 : k = a.role := h2
          exact .inr (by simp [h3])
    · exact .inr (by simp [h1])

theorem nodup_keysOf_dictInsert {d : PlanResult} (k v : String)
    (h : (keysOf d).Nodup) : (keysOf (dictInsert d k v)).Nodup := by
  by_cases hm : k ∈ keysOf d
  · rw [keysOf_dictInsert_of_mem _ hm]
    exact h
  · rw [dictInsert_of_not_mem _ hm, keysOf_append_single]
    rw [List.nodup_append]
    refine ⟨h, List.nodup_singleton _, ?_⟩
    intro x hx hxk
    rw [List.mem_singleton] at hxk
    have hxk2 : x = k := hxk
    exact hm (hxk2 ▸ hx)

theorem nodup_keysOf_foldl (gw : Gateway) (dts : TripDetails) :
    ∀ (l : List Agent) (d : PlanResult), (keysOf d).Nodup →
      (keysOf (l.foldl (planStep gw dts) d)).Nodup
  | [], _, h => h
  | _ :: t, _, h =>
    nodup_keysOf_foldl gw dts t _ (nodup_keysOf_dictInsert _ _ h)

theorem dedup_length_lt {α : Type} [DecidableEq α] (l : List α) (h : ¬ l.Nodup) :
    l.dedup.length < l.length := by
  have hsub := List.dedup_sublist l
  have hle := hsub.length_le
  rcases lt_or_eq_of_le hle with hlt | heq
  · exact hlt
  · have hde : l.dedup = l := hsub.eq_of_length heq
    exact absurd (hde ▸ List.nodup_dedup l) h

theorem length_executePlan_lt (gw : Gateway) (dts : TripDetails) (l : List Agent)
    (h : ¬ (l.map Agent.role).Nodup) :
    (l.foldl (planStep gw dts) []).length < l.length := by
  have hnd : (keysOf (l.foldl (planStep gw dts) [])).Nodup :=
    nodup_keysOf_foldl gw dts l [] (by simp [keysOf])
  have hsub : ∀ k ∈ keysOf (l.foldl (planStep gw dts) []), k ∈ l.map Agent.role := by
    intro k hk
    rcases keysOf_foldl_subset gw dts l [] k hk with h1 | h1
    · simp [keysOf] at h1
    · exact h1
  have hcard : (keysOf (l.foldl (planStep gw dts) [])).length
      ≤ (l.map Agent.role).toFinset.card := by
    rw [← List.toFinset_card_of_nodup hnd]
    apply Finset.card_le_card
    intro k hk
    rw [List.mem_toFinset] at hk ⊢
    exact hsub k hk
  have hlt : (l.map Agent.role).toFinset.card < (l.map Agent.role).length := by
    rw [List.card_toFinset]
    exact dedup_length_lt _ h
  have hlen : (l.foldl (planStep gw dts) []).length
      = (keysOf (l.foldl (planStep gw dts) [])).length :=
    (length_keysOf _).symm
  have hml : (l.map Agent.role).length = l.length := List.length_map _ _
  omega

/-- C9: when two declared agents share a role name, `execute_plan` still
attempts both (one gateway prompt per declared agent, in order), but the
Plan Result keeps strictly fewer entries than there are agents, and a
lookup of any role returns the output of the last declared agent with
that role — the later agent silently overwrites the earlier result. -/
theorem claim_C9 (gw : Gateway) (crw : TravelCrew) (d : TripDetails)
    (h : ¬ (crw.agents.map Agent.role).Nodup) :
    (executePlanTrace gw crw d).2 = crw.agents.map (fun a => fullPrompt a d) ∧
    (executePlan gw crw d).length < crw.agents.length ∧
    ∀ (k : String) (b : Agent),
      crw.agents.reverse.find? (fun x => x.role = k) = some b →
      lookupD (executePlan gw crw d) k = some (executeTask gw b (generateTask b d)) := by
  refine ⟨?_, ?_, ?_⟩
  · have := traceStep_foldl_snd gw d crw.agents ([], [])
    simpa [executePlanTrace] using this
  · exact length_executePlan_lt gw d crw.agents h
  · intro k b hb
    have := lookupD_foldl gw d crw.agents [] k
    rw [executePlan, this, hb]

/-- Witness for C9: a crew declaring two agents that both use the role
name `"Flight Specialist"`, with an always-failing gateway. -/
theorem claim_C9_witness :
    (executePlanTrace (fun _ => .error "boom")
        ⟨[⟨"Flight Specialist", "Find best flights", "Airfare wizard", []⟩,
          ⟨"Flight Specialist", "Find cheap flights", "Deal hunter", []⟩]⟩
        exampleDetails).2
      = [⟨"Flight Specialist", "Find best flights", "Airfare wizard", []⟩,
         ⟨"Flight Specialist", "Find cheap flights", "Deal hunter", []⟩].map
          (fun a => fullPrompt a exampleDetails) ∧
    (executePlan (fun _ => .error "boom")
        ⟨[⟨"Flight Specialist", "Find best flights", "Airfare wizard", []⟩,
          ⟨"Flight Specialist", "Find cheap flights", "Deal hunter", []⟩]⟩
        exampleDetails).length < 2 ∧
    ∀ (k : String) (b : Agent),
      ([⟨"Flight Specialist", "Find best flights", "Airfare wizard", []⟩,
        ⟨"Flight Specialist", "Find cheap flights", "Deal hunter", []⟩] :
          List Agent).reverse.find? (fun x => x.role = k) = some b →
      lookupD (executePlan (fun _ => .error "boom")
          ⟨[⟨"Flight Specialist", "Find best flights", "Airfare wizard", []⟩,
            ⟨"Flight Specialist", "Find cheap flights", "Deal hunter", []⟩]⟩
          exampleDetails) k
        = some (executeTask (fun _ => .error "boom") b (generateTask b exampleDetails)) :=
  claim_C9 (fun _ => .error "boom")
    ⟨[⟨"Flight Specialist", "Find best flights", "Airfare wizard", []⟩,
      ⟨"Flight Specialist", "Find cheap flights", "Deal hunter", []⟩]⟩
    exampleDetails (by decide)

/-! ### Run history (C6) -/

/-- C6 counterexample: the retained history is the bare session list,
which is appended to without trimming. After a 4th run is appended the
retained history has 4 entries, and the oldest entry is still retained —
it is not evicted. -/
theorem claim_C6_cx :
    (appendRun (appendRun (appendRun (appendRun [] ("run1", []))
        ("run2", [])) ("run3", [])) ("run4", [])).length = 4 ∧
    ("run1", ([] : PlanResult)) ∈
      appendRun (appendRun (appendRun (appendRun [] ("run1", []))
        ("run2", [])) ("run3", [])) ("run4", []) := by
  constructor
  · rfl
  · simp [appendRun]

/-- C6 amended: appending a run grows the retained history by one entry
(nothing is evicted from storage); the display iteration shows at most 3
entries and starts with the newest run, so after a 4th run the oldest
run is no longer displayed although it remains retained. -/
theorem claim_C6 (h : List RunEntry) (e : RunEntry) :
    (appendRun h e).length = h.length + 1 ∧
    (displayRuns (appendRun h e)).length ≤ 3 ∧
    (displayRuns (appendRun h e)).head? = some e := by
  refine ⟨by simp [appendRun], ?_, ?_⟩
  · rw [displayRuns, List.length_reverse, List.length_drop]
    omega
  · rw [displayRuns, List.head?_reverse, appendRun,
      List.drop_append_of_le_length (by simp),
      List.getLast?_append]
    rfl

/-! ### Date rendering (C7) -/

/-- C7: the date pair (2025-06-01, 2025-06-10) renders to the literal
string `"June 01, 2025 - June 10, 2025"`, and the empty date selection
renders to the literal string `"Not selected"`. -/
theorem claim_C7 :
    renderDates [⟨2025, 6, 1⟩, ⟨2025, 6, 10⟩] = "June 01, 2025 - June 10, 2025" ∧
    renderDates [] = "Not selected" := by
  constructor
  · rfl
  · rfl

/-! ### API-key gate (C8) -/

/-- C8: when the API key is absent (the empty, falsy string), a
submitted trip request starts no planning run: no Plan Result is
produced, no prompt is sent to the gateway, and the sidebar warning is
shown. -/
theorem claim_C8 (apiKey : String) (hkey : apiKey = "") (submitted : Bool)
    (gw : Gateway) (crw : TravelCrew) (d : TripDetails) :
    (submitRun apiKey submitted gw crw d).1 = none ∧
    (submitRun apiKey submitted gw crw d).2 = [] ∧
    warningShown apiKey = true := by
  subst hkey
  refine ⟨?_, ?_, rfl⟩ <;> simp [submitRun]

/-- Witness for C8: an empty API key with a submitted form, the crew
declared in the source, and a gateway that would answer every prompt. -/
theorem claim_C8_witness :
    (submitRun "" true (fun _ => .ok (okResponse "OK")) appCrew exampleDetails).1 = none ∧
    (submitRun "" true (fun _ => .ok (okResponse "OK")) appCrew exampleDetails).2 = [] ∧
    warningShown "" = true :=
  claim_C8 "" rfl true (fun _ => .ok (okResponse "OK")) appCrew exampleDetails

/-! ### Prompt distinctness (C5) -/

/-- `true` iff the string contains no newline character. -/
def noNewline (s : String) : Bool := s.data.all (fun c => !(c == '\n'))

theorem takeWhile_append_newline :
    ∀ (l1 l2 : List Char), (∀ c ∈ l1, (c == '\n') = false) →
      List.takeWhile (fun c => !(c == '\n')) (l1 ++ '\n' :: l2) = l1
  | [], l2, _ => by simp
  | c :: t, l2, h => by
    rw [List.cons_append, List.takeWhile_cons, h c (List.mem_cons_self c t)]
    simp only [Bool.not_false, if_true]
    rw [takeWhile_append_newline t l2 (fun x hx => h x (List.mem_cons_of_mem c hx))]

theorem firstLine_of_shape (r R : String) (hr : ∀ c ∈ r.data, (c == '\n') = false) :
    List.takeWhile (fun c => !(c == '\n'))
      (("\n        Role: " ++ (r ++ ("\n        Goal: " ++ R))).data.drop 1)
      = ("        Role: ").data ++ r.data := by
  have hshape : ("\n        Role: " ++ (r ++ ("\n        Goal: " ++ R))).data.drop 1
      = (("        Role: ").data ++ r.data)
        ++ '\n' :: (("        Goal: ").data ++ R.data) := by
    simp [String.data_append]
  rw [hshape]
  apply takeWhile_append_newline
  intro c hc
  rcases List.mem_append.mp hc with h3 | h3
  · have hhdr : ∀ c ∈ ("        Role: " : String).data, (c == '\n') = false := by decide
    exact hhdr c h3
  · exact hr c h3

theorem firstLine_buildPrompt (a : Agent) (t : String)
    (h : noNewline a.role = true) :
    List.takeWhile (fun c => !(c == '\n')) ((buildPrompt a t).data.drop 1)
      = ("        Role: ").data ++ a.role.data := by
  have hmem : ∀ c ∈ a.role.data, (c == '\n') = false := by
    intro c hc
    have := List.all_eq_true.mp h c hc
    simpa using this
  exact firstLine_of_shape a.role _ hmem

/-- C5 amended: two Role Agents with different roles, goals and
backstories, given the same Trip Request, send different full prompts to
the gateway — provided the two role names contain no newline character
(with newlines, a field can forge the rendering of the template headers
of the other agent; see the counterexample). -/
theorem claim_C5 (a1 a2 : Agent) (d : TripDetails)
    (hrole : a1.role ≠ a2.role) (_hgoal : a1.goal ≠ a2.goal)
    (_hback : a1.backstory ≠ a2.backstory)
    (h1 : noNewline a1.role = true) (h2 : noNewline a2.role = true) :
    fullPrompt a1 d ≠ fullPrompt a2 d := by
  intro heq
  have hdata : (buildPrompt a1 (generateTask a1 d)).data
      = (buildPrompt a2 (generateTask a2 d)).data := by
    have : fullPrompt a1 d = fullPrompt a2 d := heq
    simp only [fullPrompt] at this
    rw [this]
  have e1 := firstLine_buildPrompt a1 (generateTask a1 d) h1
  have e2 := firstLine_buildPrompt a2 (generateTask a2 d) h2
  have hsame : ("        Role: ").data ++ a1.role.data
      = ("        Role: ").data ++ a2.role.data := by
    rw [← e1, ← e2, hdata]
  exact hrole (String.ext (List.append_cancel_left hsame))

/-- Witness for C5 at the first two agents declared in the source and
the example Trip Request of the spec. -/
theorem claim_C5_witness :
    fullPrompt ⟨"Flight Specialist", "Find best flights", "Airfare wizard", [search_tool]⟩
        exampleDetails
      ≠ fullPrompt ⟨"Accommodation Expert", "Recommend hotels", "Hotel finder pro", [search_tool]⟩
        exampleDetails :=
  claim_C5 _ _ exampleDetails (by decide) (by decide) (by decide) (by decide) (by decide)

/-- The constant part of the prompt between a goal occurrence and the
next goal occurrence under the example Trip Request: the literal
`"\n\n        Task: "` segment followed by the task template up to
`"Your task: "`. Used to forge colliding prompts. -/
def cxSegment : String :=
  "\n\n        Task: \n        Plan a trip from New York to Paris for 2 travelers.\n        - Dates: June 01, 2025 - June 10, 2025\n        - Budget: $1500\n        - Preferences: Museums, beach, food\n\n        Your task: "

/-- First colliding agent: plain fields, with the forged remainder of
the second prompt hidden in the backstory and the tool description. -/
def cxAgent1 : Agent :=
  ⟨"x", "p",
   "w" ++ "\n        Goal: " ++ "p" ++ cxSegment ++ "p" ++ "\n        Background: " ++ "z",
   [⟨"a", fun s => s, "b" ++ cxSegment ++ "p"⟩]⟩

/-- Second colliding agent: the role forges the `Goal:` and
`Background:` headers of the first prompt. -/
def cxAgent2 : Agent :=
  ⟨"x" ++ "\n        Goal: " ++ "p" ++ "\n        Background: " ++ "w",
   "p" ++ cxSegment ++ "p", "z",
   [⟨"a", fun s => s, "b"⟩]⟩

set_option maxRecDepth 100000 in
/-- C5 counterexample: two Role Agents whose role, goal and backstory
fields all differ, given the identical example Trip Request, for which
the two full prompts sent to the gateway are EQUAL — newline-bearing
fields can replay the template headers, so distinct fields need not be
reflected as distinct prompt text. -/
theorem claim_C5_cx :
    fullPrompt cxAgent1 exampleDetails = fullPrompt cxAgent2 exampleDetails ∧
    cxAgent1.role ≠ cxAgent2.role ∧
    cxAgent1.goal ≠ cxAgent2.goal ∧
    cxAgent1.backstory ≠ cxAgent2.backstory := by
  refine ⟨by decide, by decide, by decide, by decide⟩

end TravelApp
